import Mathlib

/-!
Shallow embedding of the `tui-event-controller` crate
(`src/controller.rs`, `src/widget.rs`) and proofs of its specified
properties.

Modelling decisions, each tied to a line of the source:

* `InternalEventController` (src/controller.rs, `struct InternalEventController`)
  holds the `mpsc` channel and the callback map.  The channel is modelled by
  an explicit FIFO `queue : List E` together with `senders : Nat`, the number
  of currently-live `mpsc::Sender` handles.  The struct itself owns a
  `sender : mpsc::Sender<E>` field, so a freshly created controller starts
  with `senders = 1`: this internal sender stays alive for the whole life of
  the controller.  `std::sync::mpsc::Receiver::recv` returns an event when
  the queue is non-empty, returns `RecvError` when the queue is empty and no
  sender is live, and blocks otherwise; the three outcomes are the three
  `RecvStatus` constructors.

* `HashMap<String, EventCallback>` is modelled by an association list
  `List (String × Cb S E)`; `HashMap::insert` is `assocInsert` (replace in
  place when the key is present, append otherwise) and `HashMap::remove` is
  `assocRemove`.  The iteration order of the model is list order; the claims
  proved below do not depend on the (unspecified) `HashMap` order.

* A registered callback is an `Rc<dyn Fn(EventContext<S, E>, &mut S)>`.
  Through `ctx.controller` a callback may re-enter `add_listener`,
  `remove_listener` or send further events, so callbacks are embedded as a
  small syntax `Cb` whose interpreter `Cb.exec` threads the controller
  state.  `Cb.run` is a closure that only mutates the application state;
  `Cb.widget` is exactly the closure registered by `InteractiveWidget::new`
  (src/widget.rs lines 60-66): it borrows the shared area cell and calls
  `W::on_event(ctx, state, *area)`.

* `Rc<RefCell<InternalEventController>>` sharing (the `rc` field of
  `EventController`) is modelled by a heap `Heap S E` of internal
  controllers indexed by address; an `EventController` handle is just an
  address, and `#[derive(Clone)]` / `rc_clone` copy the address
  (`Rc::clone`).

* The shared draw-area cells `Rc<RefCell<Option<Rect>>>` live in a second
  heap `Areas`; `InteractiveWidget::new` allocates a fresh cell containing
  `none`, `render_ref` stores `some area` into the wrapper's cell before
  delegating the draw to the wrapped widget.

Execution of one `recv_and_notify` call produces a `trace` of observable
events (`TraceEntry`): one `callbackInvoked` entry per callback invocation of
the dispatch loop, and one `handlerCalled` entry per `W::on_event` call,
recording the `Option Rect` argument the handler received.
-/

/-- `ratatui::layout::Rect` — only stored and compared, never computed with,
so its four `u16` fields are plain naturals. -/
structure Rect where
  x : Nat
  y : Nat
  width : Nat
  height : Nat
deriving DecidableEq, Repr, Inhabited

/-- Embedded syntax of the callback closures that can be registered in the
controller.  `run` is a closure mutating only the application state; `addL`,
`removeL` and `sendE` are the re-entrant calls a callback can make through
`ctx.controller`; `seq` sequences two effects; `widget cell h` is the closure
registered by `InteractiveWidget::new`, which reads the shared area cell
`cell` and calls the component's `on_event` handler `h`. -/
inductive Cb (S E : Type) where
  | run (f : E → S → S)
  | addL (id : String) (cb : Cb S E)
  | removeL (id : String)
  | sendE (ev : E)
  | seq (a b : Cb S E)
  | widget (cell : Nat) (h : E → S → Option Rect → S)

/-- `HashMap::insert` on the association-list model: replace the first
binding of `id` in place, append when absent. -/
def assocInsert {S E : Type} (id : String) (cb : Cb S E) :
    List (String × Cb S E) → List (String × Cb S E)
  | [] => [(id, cb)]
  | (k, v) :: rest =>
      if k = id then (id, cb) :: rest else (k, v) :: assocInsert id cb rest

/-- `HashMap::remove` on the association-list model: drop every binding of
`id`. -/
def assocRemove {S E : Type} (id : String) :
    List (String × Cb S E) → List (String × Cb S E)
  | [] => []
  | (k, v) :: rest =>
      if k = id then assocRemove id rest else (k, v) :: assocRemove id rest

/-- `HashMap::get` on the association-list model. -/
def assocGet? {S E : Type} (id : String) :
    List (String × Cb S E) → Option (Cb S E)
  | [] => none
  | (k, v) :: rest => if k = id then some v else assocGet? id rest

/-- `InternalEventController` (src/controller.rs lines 151-160): the sender
and receiver ends of the channel and the registered callbacks.  `senders`
counts every live `mpsc::Sender` handle, including the one stored in the
struct's own `sender` field; `queue` is the channel's FIFO buffer. -/
structure InternalEventController (S E : Type) where
  senders : Nat
  queue : List E
  callbacks : List (String × Cb S E)

namespace InternalEventController

/-- `InternalEventController::new` (src/controller.rs lines 165-174):
`mpsc::channel()` plus an empty callback map.  The struct keeps the sender
it created, hence `senders = 1`. -/
def new {S E : Type} : InternalEventController S E :=
  { senders := 1, queue := [], callbacks := [] }

/-- `InternalEventController::add_listener` (src/controller.rs lines 177-182):
`self.callbacks.insert(id.to_string(), Rc::new(callback))`. -/
def add_listener {S E : Type} (c : InternalEventController S E) (id : String)
    (cb : Cb S E) : InternalEventController S E :=
  { c with callbacks := assocInsert id cb c.callbacks }

/-- `InternalEventController::remove_listener` (src/controller.rs lines
185-187): `let _ = self.callbacks.remove(id);`. -/
def remove_listener {S E : Type} (c : InternalEventController S E)
    (id : String) : InternalEventController S E :=
  { c with callbacks := assocRemove id c.callbacks }

/-- `EventController::get_sender` (src/controller.rs lines 81-83) clones the
internal sender; the controller state after handing out one more live sender
handle. -/
def get_sender {S E : Type} (c : InternalEventController S E) :
    InternalEventController S E :=
  { c with senders := c.senders + 1 }

/-- Dropping one live `mpsc::Sender` handle. -/
def drop_sender {S E : Type} (c : InternalEventController S E) :
    InternalEventController S E :=
  { c with senders := c.senders - 1 }

/-- `Sender::send`: enqueue at the back of the FIFO. -/
def send {S E : Type} (c : InternalEventController S E) (ev : E) :
    InternalEventController S E :=
  { c with queue := c.queue ++ [ev] }

end InternalEventController

/-- The heap of shared draw-area cells (`Rc<RefCell<Option<Rect>>>`),
indexed by allocation order. -/
abbrev Areas := List (Option Rect)

/-- Reading a draw-area cell (`area_clone.borrow()`); a never-allocated
index reads as `none`. -/
def getCell (a : Areas) (i : Nat) : Option Rect :=
  a.getD i none

/-- Observable events of one dispatch pass: the dispatch loop invoking one
registered callback, and a `W::on_event` handler being called with the area
value read from its cell. -/
inductive TraceEntry (S E : Type) where
  | callbackInvoked (id : String) (cb : Cb S E) (e : E)
  | handlerCalled (cell : Nat) (e : E) (area : Option Rect)

/-- The event an observable entry was generated for. -/
def TraceEntry.evt {S E : Type} : TraceEntry S E → E
  | .callbackInvoked _ _ e => e
  | .handlerCalled _ e _ => e

/-- Result of executing one callback body: the (possibly re-entrantly
mutated) controller, the application state, and the handler-call trace. -/
structure ExecOut (S E : Type) where
  ctrl : InternalEventController S E
  state : S
  trace : List (TraceEntry S E)

/-- Interpreter of one callback invocation `(callback)(ctx, state)`: the
event is `ctx.event`, the controller is reached through `ctx.controller`,
and the area heap is read-only during dispatch (nothing renders inside a
callback). -/
def Cb.exec {S E : Type} :
    Cb S E → E → InternalEventController S E → S → Areas → ExecOut S E
  | .run f, e, c, s, _ => ⟨c, f e s, []⟩
  | .addL id cb, _, c, s, _ => ⟨c.add_listener id cb, s, []⟩
  | .removeL id, _, c, s, _ => ⟨c.remove_listener id, s, []⟩
  | .sendE ev, _, c, s, _ => ⟨c.send ev, s, []⟩
  | .seq a b, e, c, s, ar =>
      let r1 := a.exec e c s ar
      let r2 := b.exec e r1.ctrl r1.state ar
      ⟨r2.ctrl, r2.state, r1.trace ++ r2.trace⟩
  | .widget cell h, e, c, s, ar =>
      ⟨c, h e s (getCell ar cell), [TraceEntry.handlerCalled cell e (getCell ar cell)]⟩

/-- The dispatch loop of `recv_and_notify` (src/controller.rs lines
110-114): iterate over the snapshot `callbacks.clone()`, invoking each
callback with a fresh `ctx` over the current controller and state. -/
def notifyAll {S E : Type} :
    List (String × Cb S E) → E → InternalEventController S E → S → Areas →
    ExecOut S E
  | [], _, c, s, _ => ⟨c, s, []⟩
  | (id, cb) :: rest, e, c, s, ar =>
      let r1 := cb.exec e c s ar
      let r2 := notifyAll rest e r1.ctrl r1.state ar
      ⟨r2.ctrl, r2.state,
        (TraceEntry.callbackInvoked id cb e :: r1.trace) ++ r2.trace⟩

/-- The three possible outcomes of the blocking `receiver.recv()` call:
an event was received and dispatched (`Ok(())`), the channel is
disconnected (`Err(mpsc::RecvError)`), or the call blocks forever. -/
inductive RecvStatus where
  | ok
  | disconnected
  | blocked
deriving DecidableEq, Repr

/-- Full outcome of one `recv_and_notify` call.  On `disconnected` and
`blocked` the controller and state are returned untouched with an empty
trace: the function returned (or never returns) before doing anything
observable. -/
structure RecvOut (S E : Type) where
  status : RecvStatus
  ctrl : InternalEventController S E
  state : S
  trace : List (TraceEntry S E)

/-- `EventController::recv_and_notify` (src/controller.rs lines 107-117)
acting on the pointed-to internal controller:
`let event = self.rc.borrow().receiver.recv()?;` pops the FIFO head (error
when the queue is empty and no sender is live, block when the queue is
empty but a sender is live), then
`let callbacks = self.rc.borrow().callbacks.clone();` snapshots the map,
and the loop invokes every snapshot entry. -/
def InternalEventController.recv_and_notify {S E : Type}
    (c : InternalEventController S E) (s : S) (ar : Areas) : RecvOut S E :=
  match c.queue with
  | [] =>
      if c.senders = 0 then ⟨.disconnected, c, s, []⟩ else ⟨.blocked, c, s, []⟩
  | e :: rest =>
      let c1 := { c with queue := rest }
      let r := notifyAll c1.callbacks e c1 s ar
      ⟨.ok, r.ctrl, r.state, r.trace⟩

/-- The callback invocations recorded in a trace, in order. -/
def invokedList {S E : Type} :
    List (TraceEntry S E) → List (String × Cb S E × E)
  | [] => []
  | .callbackInvoked id cb e :: rest => (id, cb, e) :: invokedList rest
  | .handlerCalled _ _ _ :: rest => invokedList rest

/-- Recognises a `W::on_event` call through the area cell `cell`. -/
def isHandlerCall {S E : Type} (cell : Nat) : TraceEntry S E → Bool
  | .handlerCalled c _ _ => c == cell
  | .callbackInvoked _ _ _ => false

/-- Number of `W::on_event` calls through cell `cell` in a trace. -/
def countHandlerCalls {S E : Type} (cell : Nat)
    (tr : List (TraceEntry S E)) : Nat :=
  tr.countP (isHandlerCall cell)

/-- The listener wrapper `InteractiveWidget<S, E, W>` (src/widget.rs lines
31-39), with the draw abstracted over an arbitrary buffer type `B`:
`widgetRender` is the wrapped component's `WidgetRef::render_ref`, `key` is
`W::unique_key()` and `cell` is the address of the wrapper's shared
`Rc<RefCell<Option<Rect>>>` area cell. -/
structure IWidget (B : Type) where
  widgetRender : Rect → B → B
  key : String
  cell : Nat

/-- Result of `InteractiveWidget::new`: the wrapper plus the mutated
controller and area heap. -/
structure IWidgetNewOut (S E B : Type) where
  w : IWidget B
  ctrl : InternalEventController S E
  areas : Areas

/-- `InteractiveWidget::new` (src/widget.rs lines 54-73): allocate a fresh
area cell holding `None`, clone the controller handle, and register under
`W::unique_key()` the closure that reads the cell and calls
`W::on_event(ctx, state, *area)`. -/
def IWidget.new {S E B : Type} (widgetRender : Rect → B → B) (key : String)
    (onEvent : E → S → Option Rect → S) (c : InternalEventController S E)
    (ar : Areas) : IWidgetNewOut S E B :=
  let cell := ar.length
  { w := ⟨widgetRender, key, cell⟩
  , ctrl := c.add_listener key (Cb.widget cell onEvent)
  , areas := ar ++ [none] }

/-- `impl Drop for InteractiveWidget` (src/widget.rs lines 76-85):
`self.controller.remove_listener(&W::unique_key())`. -/
def IWidget.drop {S E B : Type} (w : IWidget B)
    (c : InternalEventController S E) : InternalEventController S E :=
  c.remove_listener w.key

/-- `impl WidgetRef for InteractiveWidget` (src/widget.rs lines 93-101):
`*self.area.borrow_mut() = Some(area); self.widget.render_ref(area, buf)`. -/
def IWidget.render_ref {B : Type} (w : IWidget B) (area : Rect) (buf : B)
    (ar : Areas) : Areas × B :=
  (ar.set w.cell (some area), w.widgetRender area buf)

/-- The heap backing `Rc<RefCell<InternalEventController<S, E>>>`: internal
controllers indexed by address. -/
abbrev Heap (S E : Type) := List (InternalEventController S E)

/-- `EventController` (src/controller.rs lines 11-14): a reference-counted
handle, i.e. an address into the heap. -/
structure EventController (S E : Type) where
  rc : Nat

namespace EventController

/-- `#[derive(Clone)]` on `EventController` clones the `Rc`, which copies
the pointer: the clone is a handle to the same address. -/
def clone {S E : Type} (h : EventController S E) : EventController S E :=
  ⟨h.rc⟩

/-- `EventController::rc_clone` (src/controller.rs lines 120-124):
`Rc::clone(&self.rc)` — a handle to the same address. -/
def rc_clone {S E : Type} (h : EventController S E) : EventController S E :=
  ⟨h.rc⟩

end EventController

/-- Dereferencing a handle (`self.rc.borrow()`); a dangling address reads
as a fresh controller, ruled out by validity hypotheses. -/
def heapGet {S E : Type} (H : Heap S E) (h : EventController S E) :
    InternalEventController S E :=
  H.getD h.rc InternalEventController.new

/-- `EventController::add_listener` (src/controller.rs lines 51-56):
`self.rc.borrow_mut().add_listener(id, callback)`. -/
def EventController.add_listener {S E : Type} (H : Heap S E)
    (h : EventController S E) (id : String) (cb : Cb S E) : Heap S E :=
  H.set h.rc ((heapGet H h).add_listener id cb)

/-- `EventController::remove_listener` (src/controller.rs lines 73-75):
`self.rc.borrow_mut().remove_listener(id)`. -/
def EventController.remove_listener {S E : Type} (H : Heap S E)
    (h : EventController S E) (id : String) : Heap S E :=
  H.set h.rc ((heapGet H h).remove_listener id)

/-- `EventController::recv_and_notify` at handle level: run the call on the
pointed-to internal controller and store the mutated controller back at the
same address. -/
def EventController.recv_and_notify {S E : Type} (H : Heap S E)
    (h : EventController S E) (s : S) (ar : Areas) :
    Heap S E × RecvOut S E :=
  let out := (heapGet H h).recv_and_notify s ar
  (H.set h.rc out.ctrl, out)

/-! ### Lemmas about traces of the dispatch loop -/

theorem invokedList_append {S E : Type} (a b : List (TraceEntry S E)) :
    invokedList (a ++ b) = invokedList a ++ invokedList b := by
  induction a with
  | nil => rfl
  | cons t rest ih => cases t <;> simp [invokedList, ih]

theorem exec_invoked_nil {S E : Type} (cb : Cb S E) (e : E)
    (c : InternalEventController S E) (s : S) (ar : Areas) :
    invokedList (cb.exec e c s ar).trace = [] := by
  induction cb generalizing c s with
  | run f => rfl
  | addL id cb ih => rfl
  | removeL id => rfl
  | sendE ev => rfl
  | seq a b iha ihb => simp [Cb.exec, invokedList_append, iha, ihb]
  | widget cell h => rfl

/-- The dispatch loop invokes exactly the snapshot entries, in order,
whatever re-entrant mutations the callbacks perform. -/
theorem notifyAll_invoked {S E : Type} (l : List (String × Cb S E)) (e : E)
    (c : InternalEventController S E) (s : S) (ar : Areas) :
    invokedList (notifyAll l e c s ar).trace
      = l.map (fun p => (p.1, p.2, e)) := by
  induction l generalizing c s with
  | nil => rfl
  | cons p rest ih =>
      obtain ⟨id, cb⟩ := p
      simp [notifyAll, invokedList, invokedList_append, exec_invoked_nil, ih]

theorem exec_evt {S E : Type} (cb : Cb S E) (e : E)
    (c : InternalEventController S E) (s : S) (ar : Areas) :
    ∀ t ∈ (cb.exec e c s ar).trace, t.evt = e := by
  induction cb generalizing c s with
  | run f => simp [Cb.exec]
  | addL id cb ih => simp [Cb.exec]
  | removeL id => simp [Cb.exec]
  | sendE ev => simp [Cb.exec]
  | seq a b iha ihb =>
      intro t ht
      simp only [Cb.exec, List.mem_append] at ht
      rcases ht with h | h
      · exact iha c s t h
      · exact ihb _ _ t h
  | widget cell h =>
      intro t ht
      simp only [Cb.exec, List.mem_singleton] at ht
      subst ht
      rfl

/-- Every observable entry of one dispatch pass carries the event that was
delivered in that pass. -/
theorem notifyAll_evt {S E : Type} (l : List (String × Cb S E)) (e : E)
    (c : InternalEventController S E) (s : S) (ar : Areas) :
    ∀ t ∈ (notifyAll l e c s ar).trace, t.evt = e := by
  induction l generalizing c s with
  | nil => simp [notifyAll]
  | cons p rest ih =>
      obtain ⟨id, cb⟩ := p
      intro t ht
      simp only [notifyAll, List.cons_append, List.mem_cons,
        List.mem_append] at ht
      rcases ht with h | h | h
      · subst h; rfl
      · exact exec_evt cb e _ _ ar t h
      · exact ih _ _ t h

theorem exec_queue_extends {S E : Type} (cb : Cb S E) (e : E)
    (c : InternalEventController S E) (s : S) (ar : Areas) :
    ∃ ext, (cb.exec e c s ar).ctrl.queue = c.queue ++ ext := by
  induction cb generalizing c s with
  | run f => exact ⟨[], by simp [Cb.exec]⟩
  | addL id cb ih =>
      exact ⟨[], by simp [Cb.exec, InternalEventController.add_listener]⟩
  | removeL id =>
      exact ⟨[], by simp [Cb.exec, InternalEventController.remove_listener]⟩
  | sendE ev => exact ⟨[ev], by simp [Cb.exec, InternalEventController.send]⟩
  | seq a b iha ihb =>
      obtain ⟨e1, h1⟩ := iha c s
      obtain ⟨e2, h2⟩ := ihb (a.exec e c s ar).ctrl (a.exec e c s ar).state
      exact ⟨e1 ++ e2, by simp [Cb.exec, h2, h1]⟩
  | widget cell h => exact ⟨[], by simp [Cb.exec]⟩

/-- Callbacks can only append to the channel during a pass (via `send`):
the queue present when the pass started stays at the front. -/
theorem notifyAll_queue_extends {S E : Type} (l : List (String × Cb S E))
    (e : E) (c : InternalEventController S E) (s : S) (ar : Areas) :
    ∃ ext, (notifyAll l e c s ar).ctrl.queue = c.queue ++ ext := by
  induction l generalizing c s with
  | nil => exact ⟨[], by simp [notifyAll]⟩
  | cons p rest ih =>
      obtain ⟨id, cb⟩ := p
      obtain ⟨e1, h1⟩ := exec_queue_extends cb e c s ar
      obtain ⟨e2, h2⟩ := ih (cb.exec e c s ar).ctrl (cb.exec e c s ar).state
      exact ⟨e1 ++ e2, by simp [notifyAll, h2, h1]⟩

/-! ### Lemmas about the association-list callback map -/

theorem assocGet?_insert_ne {S E : Type} (k k2 : String) (v : Cb S E)
    (m : List (String × Cb S E)) (hne : k ≠ k2) :
    assocGet? k2 (assocInsert k v m) = assocGet? k2 m := by
  induction m with
  | nil => simp [assocInsert, assocGet?, hne]
  | cons p rest ih =>
      obtain ⟨k', v'⟩ := p
      by_cases h : k' = k
      · subst h
        simp [assocInsert, assocGet?, hne]
      · by_cases h2 : k' = k2 <;>
          simp [assocInsert, assocGet?, h, h2, Ne.symm hne, ih]

theorem assocGet?_remove_self {S E : Type} (k : String)
    (m : List (String × Cb S E)) :
    assocGet? k (assocRemove k m) = none := by
  induction m with
  | nil => rfl
  | cons p rest ih =>
      obtain ⟨k', v'⟩ := p
      by_cases h : k' = k <;> simp [assocRemove, assocGet?, h, ih]

theorem assocGet?_remove_ne {S E : Type} (k k2 : String)
    (m : List (String × Cb S E)) (hne : k ≠ k2) :
    assocGet? k2 (assocRemove k m) = assocGet? k2 m := by
  induction m with
  | nil => rfl
  | cons p rest ih =>
      obtain ⟨k', v'⟩ := p
      by_cases h : k' = k
      · subst h
        simp [assocRemove, assocGet?, hne, ih]
      · by_cases h2 : k' = k2 <;>
          simp [assocRemove, assocGet?, h, h2, Ne.symm hne, ih]

theorem assocRemove_idem {S E : Type} (k : String)
    (m : List (String × Cb S E)) :
    assocRemove k (assocRemove k m) = assocRemove k m := by
  induction m with
  | nil => rfl
  | cons p rest ih =>
      obtain ⟨k', v'⟩ := p
      by_cases h : k' = k <;> simp [assocRemove, h, ih]

theorem assocRemove_absent {S E : Type} (k : String)
    (m : List (String × Cb S E)) (habs : assocGet? k m = none) :
    assocRemove k m = m := by
  induction m with
  | nil => rfl
  | cons p rest ih =>
      obtain ⟨k', v'⟩ := p
      by_cases h : k' = k
      · subst h
        simp [assocGet?] at habs
      · simp only [assocGet?, if_neg h] at habs
        simp [assocRemove, h, ih habs]

theorem mem_assocInsert {S E : Type} (k : String) (v : Cb S E)
    (m : List (String × Cb S E)) :
    (k, v) ∈ assocInsert k v m := by
  induction m with
  | nil => simp [assocInsert]
  | cons p rest ih =>
      obtain ⟨k', v'⟩ := p
      by_cases h : k' = k <;> simp [assocInsert, h, ih]

theorem filter_eq_nil_of_not_mem_keys {S E : Type} (k : String)
    (m : List (String × Cb S E)) (h : k ∉ m.map Prod.fst) :
    m.filter (fun p => p.1 == k) = [] := by
  induction m with
  | nil => rfl
  | cons p rest ih =>
      simp only [List.map_cons, List.mem_cons] at h
      push_neg at h
      simp [List.filter_cons, Ne.symm h.1, ih h.2]

/-- Inserting twice under one key leaves exactly one binding of that key:
the second value. -/
theorem filter_assocInsert_self {S E : Type} (k : String) (v : Cb S E)
    (m : List (String × Cb S E)) (hnd : (m.map Prod.fst).Nodup) :
    (assocInsert k v m).filter (fun p => p.1 == k) = [(k, v)] := by
  induction m with
  | nil => simp [assocInsert]
  | cons p rest ih =>
      obtain ⟨k', v'⟩ := p
      simp only [List.map_cons, List.nodup_cons] at hnd
      by_cases h : k' = k
      · subst h
        simp [assocInsert, List.filter_cons,
          filter_eq_nil_of_not_mem_keys k' rest hnd.1]
      · simp [assocInsert, h, List.filter_cons, ih hnd.2]

theorem keys_nodup_assocInsert {S E : Type} (k : String) (v : Cb S E)
    (m : List (String × Cb S E)) (hnd : (m.map Prod.fst).Nodup) :
    ((assocInsert k v m).map Prod.fst).Nodup := by
  induction m with
  | nil => simp [assocInsert]
  | cons p rest ih =>
      obtain ⟨k', v'⟩ := p
      simp only [List.map_cons, List.nodup_cons] at hnd
      by_cases h : k' = k
      · subst h
        simp [assocInsert, hnd.1, hnd.2]
      · have hsub : ∀ x, x ∈ (assocInsert k v rest).map Prod.fst →
            x = k ∨ x ∈ rest.map Prod.fst := by
          clear ih hnd
          induction rest with
          | nil => simp [assocInsert]
          | cons q tail ihq =>
              obtain ⟨kq, vq⟩ := q
              by_cases hq : kq = k
              · subst hq
                simp [assocInsert]
              · intro x hx
                simp only [assocInsert, if_neg hq, List.map_cons,
                  List.mem_cons] at hx ⊢
                rcases hx with hx | hx
                · exact Or.inr (Or.inl hx)
                · rcases ihq x hx with hx' | hx'
                  · exact Or.inl hx'
                  · exact Or.inr (Or.inr hx')
        simp only [assocInsert, if_neg h, List.map_cons, List.nodup_cons]
        refine ⟨fun hmem => ?_, ih hnd.2⟩
        rcases hsub k' hmem with h' | h'
        · exact h h'
        · exact hnd.1 h'

theorem filter_key_map_triple {S E : Type} (k : String) (e : E)
    (m : List (String × Cb S E)) :
    (m.map (fun p => (p.1, p.2, e))).filter (fun q => q.1 == k)
      = (m.filter (fun p => p.1 == k)).map (fun p => (p.1, p.2, e)) := by
  induction m with
  | nil => rfl
  | cons p rest ih =>
      by_cases h : p.1 = k <;>
        simp [List.filter_cons, h, ih]

/-! ### Unfolding lemmas for `recv_and_notify` and the `Rc` heap -/

theorem recv_and_notify_empty {S E : Type}
    (c : InternalEventController S E) (s : S) (ar : Areas)
    (hq : c.queue = []) :
    c.recv_and_notify s ar
      = if c.senders = 0 then ⟨.disconnected, c, s, []⟩
        else ⟨.blocked, c, s, []⟩ := by
  unfold InternalEventController.recv_and_notify
  rw [hq]

theorem recv_and_notify_cons {S E : Type}
    (c : InternalEventController S E) (s : S) (ar : Areas) (e : E)
    (rest : List E) (hq : c.queue = e :: rest) :
    c.recv_and_notify s ar
      = let r := notifyAll c.callbacks e { c with queue := rest } s ar
        ⟨.ok, r.ctrl, r.state, r.trace⟩ := by
  unfold InternalEventController.recv_and_notify
  rw [hq]

theorem heapGet_set_self {S E : Type} (H : Heap S E) (i : Nat)
    (x : InternalEventController S E) (hv : i < H.length) :
    heapGet (H.set i x) ⟨i⟩ = x := by
  unfold heapGet
  induction H generalizing i with
  | nil => simp at hv
  | cons y rest ih =>
      cases i with
      | zero => rfl
      | succ n =>
          simpa [List.set] using ih n (by simpa using hv)

/-- One successful `recv_and_notify` pass invokes exactly the entries of the
callback map as it stood when the event was received (the snapshot), in
order — shared workhorse behind the dispatch claims. -/
theorem recv_invoked_eq {S E : Type} (c : InternalEventController S E)
    (s : S) (ar : Areas) (e : E) (rest : List E)
    (hq : c.queue = e :: rest) :
    invokedList (c.recv_and_notify s ar).trace
      = c.callbacks.map (fun p => (p.1, p.2, e)) := by
  rw [recv_and_notify_cons c s ar e rest hq]
  exact notifyAll_invoked c.callbacks e { c with queue := rest } s ar

/-- If a widget callback reading cell `cell` is in the snapshot, the pass
calls its `on_event` handler with exactly the value the cell holds while
the pass runs. -/
theorem notifyAll_mem_handlerCalled {S E : Type}
    (l : List (String × Cb S E)) (e : E)
    (c : InternalEventController S E) (s : S) (ar : Areas) (id : String)
    (cell : Nat) (h0 : E → S → Option Rect → S)
    (hmem : (id, Cb.widget cell h0) ∈ l) :
    TraceEntry.handlerCalled cell e (getCell ar cell)
      ∈ (notifyAll l e c s ar).trace := by
  induction l generalizing c s with
  | nil => simp at hmem
  | cons p rest ih =>
      obtain ⟨id', cb'⟩ := p
      rcases List.mem_cons.mp hmem with heq | hmem'
      · obtain ⟨h1, h2⟩ := Prod.mk.injEq .. ▸ heq
        subst h1; subst h2
        simp [notifyAll, Cb.exec]
      · simp only [notifyAll, List.cons_append, List.mem_cons,
          List.mem_append]
        exact Or.inr (Or.inr (ih _ _ hmem'))

/-! ### Claim theorems -/

/-- C3: `recv_and_notify` snapshots the callback map after receiving the
event and before invoking any callback, so one dispatch pass invokes
exactly the listeners present in the map at reception time — re-entrant
`add_listener` / `remove_listener` calls performed by the callbacks during
the pass neither add an invocation to the pass nor remove one from it;
they only change the map the next pass will snapshot. -/
theorem claim_C3_snapshot_dispatch {S E : Type}
    (c : InternalEventController S E) (s : S) (ar : Areas) (e : E)
    (rest : List E) (hq : c.queue = e :: rest) :
    invokedList (c.recv_and_notify s ar).trace
      = c.callbacks.map (fun p => (p.1, p.2, e)) :=
  recv_invoked_eq c s ar e rest hq

/-- Witness for C3: a single listener that registers another listener for
itself during dispatch is the only invocation of its pass. -/
theorem claim_C3_witness :
    invokedList
        ((⟨1, [5], [("a", Cb.addL "b" (Cb.run (fun e s => e + s)))]⟩ :
            InternalEventController Nat Nat).recv_and_notify 0 []).trace
      = [("a", Cb.addL "b" (Cb.run (fun e s => e + s)), 5)] :=
  claim_C3_snapshot_dispatch _ 0 [] 5 [] rfl

/-- C2: registering `f` then `g` under one key `k` leaves only `g` active:
a successful dispatch pass invokes, under `k`, exactly `g` and exactly
once. -/
theorem claim_C2_last_registration_wins {S E : Type}
    (c : InternalEventController S E) (s : S) (ar : Areas) (k : String)
    (f g : Cb S E) (e : E) (rest : List E)
    (hnd : (c.callbacks.map Prod.fst).Nodup) (hq : c.queue = e :: rest) :
    (invokedList
        (((c.add_listener k f).add_listener k g).recv_and_notify s ar).trace
      ).filter (fun q => q.1 == k) = [(k, g, e)] := by
  rw [recv_invoked_eq ((c.add_listener k f).add_listener k g) s ar e rest hq]
  rw [filter_key_map_triple]
  rw [show ((c.add_listener k f).add_listener k g).callbacks
        = assocInsert k g (assocInsert k f c.callbacks) from rfl]
  rw [filter_assocInsert_self k g _
        (keys_nodup_assocInsert k f c.callbacks hnd)]
  rfl

/-- Witness for C2 on a fresh controller with one queued event. -/
theorem claim_C2_witness :
    List.filter (fun q => q.1 == "k")
      (invokedList
        (InternalEventController.recv_and_notify
          (InternalEventController.add_listener
            (InternalEventController.add_listener
              (⟨1, [5], []⟩ : InternalEventController Nat Nat)
              "k" (Cb.run (fun _ s => s + 1)))
            "k" (Cb.run (fun _ s => s + 2)))
          0 []).trace)
      = [("k", Cb.run (fun _ s => s + 2), 5)] :=
  claim_C2_last_registration_wins _ 0 [] "k" _ _ 5 []
    List.nodup_nil rfl

/-- C7: `remove_listener` is idempotent and total — removing twice equals
removing once, and removing an absent key leaves the controller exactly as
it was (the model is a total function: no error, no panic path exists). -/
theorem claim_C7_remove_listener_idempotent {S E : Type}
    (c : InternalEventController S E) (id : String) :
    (c.remove_listener id).remove_listener id = c.remove_listener id ∧
    (assocGet? id c.callbacks = none → c.remove_listener id = c) := by
  constructor
  · simp [InternalEventController.remove_listener, assocRemove_idem]
  · intro habs
    simp [InternalEventController.remove_listener,
      assocRemove_absent id c.callbacks habs]

/-- Witness for C7: removing a never-registered key from a fresh controller. -/
theorem claim_C7_witness :
    (((InternalEventController.new : InternalEventController Unit Unit
        ).remove_listener "foo").remove_listener "foo"
      = (InternalEventController.new : InternalEventController Unit Unit
        ).remove_listener "foo") ∧
    ((InternalEventController.new : InternalEventController Unit Unit
        ).remove_listener "foo" = InternalEventController.new) :=
  ⟨(claim_C7_remove_listener_idempotent InternalEventController.new "foo").1,
   (claim_C7_remove_listener_idempotent InternalEventController.new "foo").2
     rfl⟩

/-- C9: whenever `recv_and_notify` returns the disconnection error, it has
invoked no callback and left both the controller (callback map included)
and the application state exactly as they were: the error arises at the
`receiver.recv()?` step, before any notification. -/
theorem claim_C9_disconnect_atomicity {S E : Type}
    (c : InternalEventController S E) (s : S) (ar : Areas)
    (hd : (c.recv_and_notify s ar).status = .disconnected) :
    (c.recv_and_notify s ar).trace = [] ∧
    (c.recv_and_notify s ar).ctrl = c ∧
    (c.recv_and_notify s ar).state = s := by
  rcases hqe : c.queue with _ | ⟨e, rest⟩
  · rw [recv_and_notify_empty c s ar hqe] at hd ⊢
    by_cases hs : c.senders = 0
    · simp [hs]
    · simp [hs] at hd
  · rw [recv_and_notify_cons c s ar e rest hqe] at hd
    simp at hd

/-- Witness for C9: a controller whose every sender is gone. -/
theorem claim_C9_witness :
    ((⟨0, [], []⟩ : InternalEventController Unit Unit
        ).recv_and_notify () []).trace = [] ∧
    ((⟨0, [], []⟩ : InternalEventController Unit Unit
        ).recv_and_notify () []).ctrl = ⟨0, [], []⟩ ∧
    ((⟨0, [], []⟩ : InternalEventController Unit Unit
        ).recv_and_notify () []).state = () :=
  claim_C9_disconnect_atomicity _ () [] rfl

/-- C10: `add_listener k f` and `remove_listener k` neither touch the
binding of any other key `k2` nor the queued events nor the live senders. -/
theorem claim_C10_registration_frame {S E : Type}
    (c : InternalEventController S E) (k k2 : String) (f : Cb S E)
    (hne : k ≠ k2) :
    assocGet? k2 (c.add_listener k f).callbacks
        = assocGet? k2 c.callbacks ∧
    assocGet? k2 (c.remove_listener k).callbacks
        = assocGet? k2 c.callbacks ∧
    (c.add_listener k f).queue = c.queue ∧
    (c.remove_listener k).queue = c.queue ∧
    (c.add_listener k f).senders = c.senders ∧
    (c.remove_listener k).senders = c.senders :=
  ⟨assocGet?_insert_ne k k2 f c.callbacks hne,
   assocGet?_remove_ne k k2 c.callbacks hne, rfl, rfl, rfl, rfl⟩

/-- Witness for C10 at distinct concrete keys. -/
theorem claim_C10_witness :
    (assocGet? "b" ((⟨1, [], []⟩ : InternalEventController Unit Unit
          ).add_listener "a" (Cb.run (fun _ s => s))).callbacks
        = assocGet? "b"
            (⟨1, [], []⟩ : InternalEventController Unit Unit).callbacks) ∧
    (assocGet? "b" ((⟨1, [], []⟩ : InternalEventController Unit Unit
          ).remove_listener "a").callbacks
        = assocGet? "b"
            (⟨1, [], []⟩ : InternalEventController Unit Unit).callbacks) ∧
    ((⟨1, [], []⟩ : InternalEventController Unit Unit).add_listener "a"
          (Cb.run (fun _ s => s))).queue
        = (⟨1, [], []⟩ : InternalEventController Unit Unit).queue ∧
    ((⟨1, [], []⟩ : InternalEventController Unit Unit).remove_listener
          "a").queue
        = (⟨1, [], []⟩ : InternalEventController Unit Unit).queue ∧
    ((⟨1, [], []⟩ : InternalEventController Unit Unit).add_listener "a"
          (Cb.run (fun _ s => s))).senders
        = (⟨1, [], []⟩ : InternalEventController Unit Unit).senders ∧
    ((⟨1, [], []⟩ : InternalEventController Unit Unit).remove_listener
          "a").senders
        = (⟨1, [], []⟩ : InternalEventController Unit Unit).senders :=
  claim_C10_registration_frame _ "a" "b" _ (by decide)

/-- C1 counterexample: the claim says that once every sender handle
obtained via `get_sender` has been dropped and the queue is empty, the next
`recv_and_notify` returns the disconnection error.  On a fresh controller
obtain one sender and drop it again: every obtained sender is now dropped
and the queue is empty, yet `recv_and_notify` blocks — the
`InternalEventController` struct itself still owns the `sender` field it
created in `new`, so the channel is never disconnected while the controller
is alive. -/
theorem claim_C1_counterexample :
    ((((InternalEventController.new : InternalEventController Unit Unit
        ).get_sender).drop_sender).recv_and_notify () []).status
        = RecvStatus.blocked ∧
    RecvStatus.blocked ≠ RecvStatus.disconnected :=
  ⟨rfl, by decide⟩

/-- C1 amended: while the controller is alive its internal `sender` field
keeps the channel connected (`senders ≥ 1`), so `recv_and_notify` can never
return the disconnection error — with an empty queue it blocks forever
instead.  Dropping every sender obtained from `get_sender` is therefore
not sufficient for the disconnection error. -/
theorem claim_C1_amended_no_disconnect_while_alive {S E : Type}
    (c : InternalEventController S E) (s : S) (ar : Areas)
    (halive : 1 ≤ c.senders) :
    (c.recv_and_notify s ar).status ≠ RecvStatus.disconnected ∧
    (c.queue = [] → (c.recv_and_notify s ar).status = RecvStatus.blocked) := by
  have hs : ¬ c.senders = 0 := by omega
  rcases hqe : c.queue with _ | ⟨e, rest⟩
  · rw [recv_and_notify_empty c s ar hqe]
    simp [hs]
  · have hok : (c.recv_and_notify s ar).status = RecvStatus.ok := by
      rw [recv_and_notify_cons c s ar e rest hqe]
    exact ⟨by simp [hok], fun hnil => absurd hnil (List.cons_ne_nil e rest)⟩

/-- Witness for the amended C1 at a fresh controller. -/
theorem claim_C1_amended_witness :
    ((InternalEventController.new : InternalEventController Unit Unit
        ).recv_and_notify () []).status ≠ RecvStatus.disconnected ∧
    ((InternalEventController.new : InternalEventController Unit Unit
        ).queue = [] →
      ((InternalEventController.new : InternalEventController Unit Unit
          ).recv_and_notify () []).status = RecvStatus.blocked) :=
  claim_C1_amended_no_disconnect_while_alive
    InternalEventController.new () [] (by decide)

/-- C5: three events sent in order `A`, `B`, `C` through the channel are
delivered by three successive `recv_and_notify` passes in exactly that
order: each pass succeeds and every listener invocation (indeed every
observable entry) of pass `i` carries the `i`-th event — no reordering,
loss or duplication, even if callbacks enqueue further events (those only
ever append behind `C`). -/
theorem claim_C5_fifo_delivery {S E : Type}
    (c : InternalEventController S E) (s : S) (ar : Areas) (A B C : E)
    (hq : c.queue = []) :
    let p1 := (((c.send A).send B).send C).recv_and_notify s ar
    let p2 := p1.ctrl.recv_and_notify p1.state ar
    let p3 := p2.ctrl.recv_and_notify p2.state ar
    p1.status = .ok ∧ p2.status = .ok ∧ p3.status = .ok ∧
    (∀ t ∈ p1.trace, t.evt = A) ∧ (∀ t ∈ p2.trace, t.evt = B) ∧
    (∀ t ∈ p3.trace, t.evt = C) := by
  intro p1 p2 p3
  have hq3 : (((c.send A).send B).send C).queue = A :: [B, C] := by
    simp [InternalEventController.send, hq]
  have h1 := recv_and_notify_cons (((c.send A).send B).send C) s ar
      A [B, C] hq3
  obtain ⟨ext1, hx1⟩ := notifyAll_queue_extends
      (((c.send A).send B).send C).callbacks A
      { ((c.send A).send B).send C with queue := [B, C] } s ar
  have hq1 : p1.ctrl.queue = B :: ([C] ++ ext1) := by
    show ((((c.send A).send B).send C).recv_and_notify s ar).ctrl.queue
        = B :: ([C] ++ ext1)
    rw [h1]
    simpa using hx1
  have h2 := recv_and_notify_cons p1.ctrl p1.state ar B ([C] ++ ext1) hq1
  obtain ⟨ext2, hx2⟩ := notifyAll_queue_extends
      p1.ctrl.callbacks B { p1.ctrl with queue := [C] ++ ext1 } p1.state ar
  have hq2 : p2.ctrl.queue = C :: (ext1 ++ ext2) := by
    show (p1.ctrl.recv_and_notify p1.state ar).ctrl.queue
        = C :: (ext1 ++ ext2)
    rw [h2]
    simpa using hx2
  have h3 := recv_and_notify_cons p2.ctrl p2.state ar C (ext1 ++ ext2) hq2
  refine ⟨?_, ?_, ?_, ?_, ?_, ?_⟩
  · show ((((c.send A).send B).send C).recv_and_notify s ar).status = .ok
    rw [h1]
  · show (p1.ctrl.recv_and_notify p1.state ar).status = .ok
    rw [h2]
  · show (p2.ctrl.recv_and_notify p2.state ar).status = .ok
    rw [h3]
  · show ∀ t ∈ ((((c.send A).send B).send C).recv_and_notify s ar).trace,
        t.evt = A
    rw [h1]
    exact notifyAll_evt _ A _ s ar
  · show ∀ t ∈ (p1.ctrl.recv_and_notify p1.state ar).trace, t.evt = B
    rw [h2]
    exact notifyAll_evt _ B _ p1.state ar
  · show ∀ t ∈ (p2.ctrl.recv_and_notify p2.state ar).trace, t.evt = C
    rw [h3]
    exact notifyAll_evt _ C _ p2.state ar

/-- Witness for C5: a fresh controller with one listener, fed `1, 2, 3`. -/
theorem claim_C5_witness :
    let c0 := (InternalEventController.new :
        InternalEventController Nat Nat).add_listener "a"
        (Cb.run (fun e s => e + s))
    let p1 := (((c0.send 1).send 2).send 3).recv_and_notify 0 []
    let p2 := p1.ctrl.recv_and_notify p1.state []
    let p3 := p2.ctrl.recv_and_notify p2.state []
    p1.status = .ok ∧ p2.status = .ok ∧ p3.status = .ok ∧
    (∀ t ∈ p1.trace, t.evt = 1) ∧ (∀ t ∈ p2.trace, t.evt = 2) ∧
    (∀ t ∈ p3.trace, t.evt = 3) :=
  claim_C5_fifo_delivery _ 0 [] 1 2 3 rfl

theorem getCell_append_self (ar : Areas) (v : Option Rect) :
    getCell (ar ++ [v]) ar.length = v := by
  simp [getCell]

theorem getCell_set_self (a : Areas) (i : Nat) (v : Option Rect)
    (hv : i < a.length) :
    getCell (a.set i v) i = v := by
  unfold getCell
  induction a generalizing i with
  | nil => simp at hv
  | cons x rest ih =>
      cases i with
      | zero => rfl
      | succ n => simpa [List.set] using ih n (by simpa using hv)

/-- C4: a freshly constructed `InteractiveWidget` has registered its
callback under `W::unique_key()`, so dispatching a first event calls the
component's `on_event` handler exactly once; after the wrapper is dropped
(which unregisters the key) a second dispatch pass calls the handler zero
times — one observed invocation in total. -/
theorem claim_C4_lifetime_binding {S E B : Type}
    (widgetRender : Rect → B → B) (key : String)
    (onEvent : E → S → Option Rect → S) (s : S) (e1 e2 : E) :
    let res := IWidget.new widgetRender key onEvent
        (InternalEventController.new : InternalEventController S E) []
    let p1 := ((res.ctrl.send e1).send e2).recv_and_notify s res.areas
    let p2 := (res.w.drop p1.ctrl).recv_and_notify p1.state res.areas
    p1.status = .ok ∧ countHandlerCalls res.w.cell p1.trace = 1 ∧
    p2.status = .ok ∧ countHandlerCalls res.w.cell p2.trace = 0 := by
  simp [IWidget.new, IWidget.drop, InternalEventController.new,
    InternalEventController.add_listener, InternalEventController.send,
    InternalEventController.remove_listener,
    InternalEventController.recv_and_notify, notifyAll, Cb.exec,
    assocInsert, assocRemove, getCell, countHandlerCalls, isHandlerCall,
    List.countP_cons]

/-- C6: a wrapper's area cell is `none` until its first render; rendering
with area `r` writes `some r` into the cell; and a dispatch pass performed
after that render hands the handler exactly `some r` — not `none`, not a
stale value. -/
theorem claim_C6_area_propagation {S E B : Type}
    (widgetRender : Rect → B → B) (key : String)
    (onEvent : E → S → Option Rect → S)
    (c : InternalEventController S E) (ar : Areas) (s : S) (e : E)
    (r : Rect) (buf : B) (hq : c.queue = []) :
    let res := IWidget.new widgetRender key onEvent c ar
    let rendered := res.w.render_ref r buf res.areas
    let p := (res.ctrl.send e).recv_and_notify s rendered.1
    getCell res.areas res.w.cell = none ∧
    getCell rendered.1 res.w.cell = some r ∧
    TraceEntry.handlerCalled res.w.cell e (some r) ∈ p.trace := by
  intro res rendered p
  have hset : getCell ((ar ++ [none]).set ar.length (some r)) ar.length
      = some r :=
    getCell_set_self (ar ++ [none]) ar.length (some r) (by simp)
  refine ⟨getCell_append_self ar none, hset, ?_⟩
  have hq2 : ((c.add_listener key (Cb.widget ar.length onEvent)).send e
      ).queue = e :: [] := by
    simp [InternalEventController.add_listener,
      InternalEventController.send, hq]
  have hrw := recv_and_notify_cons
      ((c.add_listener key (Cb.widget ar.length onEvent)).send e) s
      ((ar ++ [none]).set ar.length (some r)) e [] hq2
  have hmem := notifyAll_mem_handlerCalled
      ((c.add_listener key (Cb.widget ar.length onEvent)).send e).callbacks
      e { (c.add_listener key (Cb.widget ar.length onEvent)).send e with
          queue := [] }
      s ((ar ++ [none]).set ar.length (some r)) key ar.length onEvent
      (mem_assocInsert key (Cb.widget ar.length onEvent) c.callbacks)
  rw [hset] at hmem
  have hgoal : TraceEntry.handlerCalled ar.length e (some r) ∈
      (((c.add_listener key (Cb.widget ar.length onEvent)).send e
        ).recv_and_notify s ((ar ++ [none]).set ar.length (some r))).trace := by
    rw [hrw]
    exact hmem
  exact hgoal

/-- Witness for C6: render a fresh widget at `(0, 0, 10, 3)` and dispatch
one event. -/
theorem claim_C6_witness :
    let res := IWidget.new (fun _ (b : Unit) => b) "w"
        (fun (_ : Nat) (st : Nat) _ => st)
        (InternalEventController.new : InternalEventController Nat Nat) []
    let rendered := res.w.render_ref ⟨0, 0, 10, 3⟩ () res.areas
    let p := (res.ctrl.send 7).recv_and_notify 0 rendered.1
    getCell res.areas res.w.cell = none ∧
    getCell rendered.1 res.w.cell = some ⟨0, 0, 10, 3⟩ ∧
    TraceEntry.handlerCalled res.w.cell 7 (some ⟨0, 0, 10, 3⟩) ∈ p.trace :=
  claim_C6_area_propagation (fun _ b => b) "w" (fun _ st _ => st)
    InternalEventController.new [] 0 7 ⟨0, 0, 10, 3⟩ () rfl

/-- C8: handles produced by `clone` / `rc_clone` point at the same
internal controller: a listener registered through the clone is visible
through the original handle, a `recv_and_notify` on the original handle
invokes it, and removing it through the clone removes it for every
handle. -/
theorem claim_C8_clones_share_state {S E : Type} (H : Heap S E)
    (h : EventController S E) (id : String) (cb : Cb S E) (s : S)
    (ar : Areas) (e : E) (rest : List E) (hv : h.rc < H.length)
    (hq : (heapGet H h).queue = e :: rest) :
    heapGet (EventController.add_listener H h.clone id cb) h
        = (heapGet H h).add_listener id cb ∧
    (id, cb, e) ∈ invokedList
        ((EventController.recv_and_notify
            (EventController.add_listener H h.clone id cb) h s ar).2.trace) ∧
    assocGet? id
        (heapGet
          (EventController.remove_listener
            (EventController.add_listener H h.rc_clone id cb) h.rc_clone id)
          h).callbacks = none := by
  have hshare : heapGet (EventController.add_listener H h.clone id cb) h
      = (heapGet H h).add_listener id cb :=
    heapGet_set_self H h.rc ((heapGet H h).add_listener id cb) hv
  have hq2 : (heapGet (EventController.add_listener H h.clone id cb) h).queue
      = e :: rest := by rw [hshare]; exact hq
  refine ⟨hshare, ?_, ?_⟩
  · show (id, cb, e) ∈ invokedList
        ((heapGet (EventController.add_listener H h.clone id cb) h
          ).recv_and_notify s ar).trace
    rw [recv_invoked_eq _ s ar e rest hq2, hshare]
    exact List.mem_map_of_mem _
      (mem_assocInsert id cb (heapGet H h).callbacks)
  · have hv2 : h.rc <
        (EventController.add_listener H h.rc_clone id cb).length := by
      simpa [EventController.add_listener] using hv
    have h3 : heapGet
        (EventController.remove_listener
          (EventController.add_listener H h.rc_clone id cb) h.rc_clone id) h
        = (heapGet (EventController.add_listener H h.rc_clone id cb)
            h.rc_clone).remove_listener id :=
      heapGet_set_self _ h.rc _ hv2
    rw [h3]
    exact assocGet?_remove_self id _

/-- Witness for C8 on a one-controller heap with one queued event. -/
theorem claim_C8_witness :
    heapGet
        (EventController.add_listener
          ([⟨1, [0], []⟩] : Heap Nat Nat)
          (EventController.clone ⟨0⟩) "w" (Cb.run (fun _ st => st)))
        ⟨0⟩
      = (heapGet ([⟨1, [0], []⟩] : Heap Nat Nat) ⟨0⟩).add_listener "w"
          (Cb.run (fun _ st => st)) ∧
    ("w", Cb.run (fun _ st => st), 0) ∈ invokedList
        ((EventController.recv_and_notify
            (EventController.add_listener
              ([⟨1, [0], []⟩] : Heap Nat Nat)
              (EventController.clone ⟨0⟩) "w" (Cb.run (fun _ st => st)))
            ⟨0⟩ 0 []).2.trace) ∧
    assocGet? "w"
        (heapGet
          (EventController.remove_listener
            (EventController.add_listener
              ([⟨1, [0], []⟩] : Heap Nat Nat)
              (EventController.rc_clone ⟨0⟩) "w" (Cb.run (fun _ st => st)))
            (EventController.rc_clone ⟨0⟩) "w")
          ⟨0⟩).callbacks = none :=
  claim_C8_clones_share_state ([⟨1, [0], []⟩] : Heap Nat Nat) ⟨0⟩ "w"
    (Cb.run (fun _ st => st)) 0 [] 0 [] (by decide) rfl
